import Mathlib

/-!
Shallow embedding of `src/lib/webrtc.ts` (class `WebRTCManager`): the
perfect-negotiation state machine for a multi-peer audio mesh.  Pure
state-passing model: the `Manager` record mirrors the class fields, the
opaque `RTCPeerConnection` is modelled by the `Connection` record
(signaling state, local/remote description, candidates applied to the
transport, number of transceivers), and messages handed to
`sendToSignalingServer` are collected in an outbox.  Asynchronous
transport operations are modelled as succeeding deterministically; the
`try/catch/finally` failure paths of `createOffer` and `renegotiate`
(where the `finally` clause is the point of the spec) are modelled by an
explicit `fail` flag.
-/

namespace WebRTC

/-- `RTCSignalingState` values used by the code. -/
inductive SigState where
  | stable
  | haveLocalOffer
  | haveRemoteOffer
  | closed
deriving DecidableEq, Repr

/-- Session description kind. -/
inductive SdpType where
  | offer
  | answer
deriving DecidableEq, Repr

/-- An `RTCSessionDescription`: a kind plus opaque SDP payload. -/
structure Sdp where
  sdpType : SdpType
  content : String
deriving DecidableEq, Repr

/-- An ICE candidate (`RTCIceCandidateInit`), opaque to the negotiator. -/
abbrev Candidate := String

/-- An `RTCRtpSender`: carries the id of its current track, if any. -/
structure Sender where
  track : Option String
deriving DecidableEq, Repr

/-- Model of the opaque `RTCPeerConnection` transport handle.
`appliedCandidates` records, in order, every candidate handed to
`addIceCandidate`; `transceiverCount` counts transceivers created by
`addTransceiver`/`addTrack`. -/
structure Connection where
  signalingState : SigState
  remoteDescription : Option Sdp
  localDescription : Option Sdp
  appliedCandidates : List Candidate
  transceiverCount : Nat
deriving DecidableEq, Repr

/-- `setLocalDescription`: an offer moves the state to `have-local-offer`,
an answer back to `stable`. -/
def Connection.setLocalDesc (c : Connection) (d : Sdp) : Connection :=
  { c with
    localDescription := some d
    signalingState :=
      match d.sdpType with
      | .offer => .haveLocalOffer
      | .answer => .stable }

/-- `setRemoteDescription`: a remote offer moves the state to
`have-remote-offer`, a remote answer back to `stable`. -/
def Connection.setRemoteDesc (c : Connection) (d : Sdp) : Connection :=
  { c with
    remoteDescription := some d
    signalingState :=
      match d.sdpType with
      | .offer => .haveRemoteOffer
      | .answer => .stable }

/-- `addIceCandidate`: the transport receives one more candidate. -/
def Connection.addIce (c : Connection) (cand : Candidate) : Connection :=
  { c with appliedCandidates := c.appliedCandidates ++ [cand] }

/-- The per-peer record of `interface PeerConnection` in the source. -/
structure PeerConnection where
  id : String
  connection : Connection
  audioSender : Option Sender
  isPolite : Bool
  makingOffer : Bool
  pendingCandidates : List Candidate
deriving DecidableEq, Repr

/-- A local audio track: its id and `enabled` flag. -/
structure Track where
  id : String
  enabled : Bool
deriving DecidableEq, Repr

/-- Messages passed to `sendToSignalingServer`.  `createOffer` and
`renegotiate` send `peerConnection.localDescription` (an option), while
`handleOffer` sends the freshly created answer object. -/
inductive SignalMsg where
  | offerMsg (dest : String) (sdp : Option Sdp)
  | answerMsg (dest : String) (sdp : Sdp)
  | iceMsg (dest : String) (cand : Candidate)
  | micStatusMsg (status : Bool)
deriving DecidableEq, Repr

/-- State of a `WebRTCManager` instance.  `peers` is the `Map` in
insertion order; `localTrack` is the first audio track of
`processedStream || localStream` (none while no stream exists); `wsOpen`
is whether `ws.readyState === WebSocket.OPEN`; `outbox` collects every
message actually written to the socket. -/
structure Manager where
  peers : List (String × PeerConnection)
  myId : String
  isMicEnabled : Bool
  localTrack : Option Track
  wsOpen : Bool
  outbox : List SignalMsg
deriving DecidableEq, Repr

/-- Association-list lookup, modelling `Map.get`. -/
def lookupKey : List (String × α) → String → Option α
  | [], _ => none
  | (k, v) :: rest, pid => if k = pid then some v else lookupKey rest pid

/-- Association-list insert/update, modelling `Map.set` (updates in
place, appends new keys at the end, as JS `Map` iteration order does). -/
def setKey : List (String × α) → String → α → List (String × α)
  | [], pid, v => [(pid, v)]
  | (k, w) :: rest, pid, v =>
      if k = pid then (k, v) :: rest else (k, w) :: setKey rest pid v

/-- Association-list removal, modelling `Map.delete`. -/
def delKey : List (String × α) → String → List (String × α)
  | [], _ => []
  | (k, w) :: rest, pid =>
      if k = pid then delKey rest pid else (k, w) :: delKey rest pid

/-- `this.peers.get(peerId)`. -/
def peersGet (m : Manager) (pid : String) : Option PeerConnection :=
  lookupKey m.peers pid

/-- `this.peers.set(peerId, peer)`. -/
def setPeer (m : Manager) (pid : String) (p : PeerConnection) : Manager :=
  { m with peers := setKey m.peers pid p }

/-- `sendToSignalingServer`: writes to the socket only when it is open,
otherwise warns and drops the message. -/
def sendToSignalingServer (m : Manager) (msg : SignalMsg) : Manager :=
  if m.wsOpen then { m with outbox := m.outbox ++ [msg] } else m

/-- A fresh `RTCPeerConnection` right after `createPeerConnection` has run
`addTransceiver('audio', { direction: 'sendrecv' })`: stable, no
descriptions, one transceiver. -/
def newConnection : Connection :=
  { signalingState := .stable
    remoteDescription := none
    localDescription := none
    appliedCandidates := []
    transceiverCount := 1 }

/-- `createPeerConnection(peerId, isPolite)`: reuses an existing peer
unchanged; otherwise registers a fresh peer whose `audioSender` is the
sender of the single audio transceiver (no track yet). -/
def createPeerConnection (m : Manager) (pid : String) (pol : Bool) : Manager :=
  match peersGet m pid with
  | some _ => m
  | none =>
      setPeer m pid
        { id := pid
          connection := newConnection
          audioSender := some { track := none }
          isPolite := pol
          makingOffer := false
          pendingCandidates := [] }

/-- `attachLocalAudio(peerId, ...)`: no-op without peer or local track;
no-op if the sender already carries this track; otherwise
`replaceTrack` in place; the `addTrack` fallback (only reachable when
the peer has no sender) creates an extra transceiver. -/
def attachLocalAudio (m : Manager) (pid : String) : Manager :=
  match peersGet m pid, m.localTrack with
  | some peer, some t =>
      match peer.audioSender with
      | some snd =>
          if snd.track = some t.id then m
          else setPeer m pid { peer with audioSender := some { track := some t.id } }
      | none =>
          setPeer m pid
            { peer with
              audioSender := some { track := some t.id }
              connection :=
                { peer.connection with
                  transceiverCount := peer.connection.transceiverCount + 1 } }
  | _, _ => m

/-- `peer.makingOffer = b` for an existing peer. -/
def setMakingOffer (m : Manager) (pid : String) (b : Bool) : Manager :=
  match peersGet m pid with
  | some p => setPeer m pid { p with makingOffer := b }
  | none => m

/-- The offer the local side constructs (`pc.createOffer()`), opaque. -/
def localOfferSdp : Sdp := { sdpType := .offer, content := "local-offer" }

/-- The answer the local side constructs (`pc.createAnswer()`), opaque. -/
def localAnswerSdp : Sdp := { sdpType := .answer, content := "local-answer" }

/-- `createOffer(peerId)`: computes politeness from `myId < peerId`,
ensures the peer exists, skips silently unless idle and `stable`,
attaches local audio, then runs the guarded offer construction whose
`finally` clears `makingOffer` on success and on failure alike.
`fail = true` models a throw inside the `try` block (from
`pc.createOffer()` or `setLocalDescription`), before any modelled state
change of the try body. -/
def createOffer (m : Manager) (pid : String) (fail : Bool) : Manager :=
  let pol := decide (m.myId < pid)
  let m1 := createPeerConnection m pid pol
  match peersGet m1 pid with
  | none => m1
  | some peer =>
      if peer.makingOffer ∨ peer.connection.signalingState ≠ .stable then m1
      else
        let m2 := attachLocalAudio m1 pid
        if fail then setMakingOffer m2 pid false
        else
          match peersGet m2 pid with
          | none => m2
          | some p2 =>
              let conn := p2.connection.setLocalDesc localOfferSdp
              let m3 := setPeer m2 pid { p2 with connection := conn, makingOffer := false }
              sendToSignalingServer m3 (.offerMsg pid conn.localDescription)

/-- `renegotiate(peerId, ...)`: only with an established remote
description, no offer in flight, and `stable` phase; same guarded
offer construction with `finally` as `createOffer`. -/
def renegotiate (m : Manager) (pid : String) (fail : Bool) : Manager :=
  match peersGet m pid with
  | none => m
  | some peer =>
      if peer.connection.remoteDescription = none then m
      else if peer.makingOffer then m
      else if peer.connection.signalingState ≠ .stable then m
      else if fail then setMakingOffer m pid false
      else
        let conn := peer.connection.setLocalDesc localOfferSdp
        let m1 := setPeer m pid { peer with connection := conn, makingOffer := false }
        sendToSignalingServer m1 (.offerMsg pid conn.localDescription)

/-- Applying the buffered candidates to the transport, in arrival order. -/
def drainPending (c : Connection) (pending : List Candidate) : Connection :=
  pending.foldl Connection.addIce c

/-- `handleOffer(peerId, sdp)`: creates the peer if unknown (politeness
from `myId < peerId`), ignores the offer on a collision when impolite,
otherwise attaches audio, sets the remote description, drains the
buffered candidates, constructs and sets the answer, and sends it. -/
def handleOffer (m : Manager) (pid : String) (sdp : Sdp) : Manager :=
  let pol := decide (m.myId < pid)
  let m1 :=
    match peersGet m pid with
    | some _ => m
    | none => createPeerConnection m pid pol
  match peersGet m1 pid with
  | none => m1
  | some peer =>
      let offerCollision :=
        peer.makingOffer || decide (peer.connection.signalingState ≠ .stable)
      let ignoreOffer := !peer.isPolite && offerCollision
      if ignoreOffer then m1
      else
        let m2 := attachLocalAudio m1 pid
        match peersGet m2 pid with
        | none => m2
        | some p2 =>
            let c1 := p2.connection.setRemoteDesc sdp
            let c2 := drainPending c1 p2.pendingCandidates
            let c3 := c2.setLocalDesc localAnswerSdp
            let m3 := setPeer m2 pid { p2 with connection := c3, pendingCandidates := [] }
            sendToSignalingServer m3 (.answerMsg pid localAnswerSdp)

/-- `handleAnswer(peerId, sdp)`: warns and returns on an unknown peer,
ignores the answer unless in `have-local-offer`, otherwise sets the
remote description and drains the buffered candidates. -/
def handleAnswer (m : Manager) (pid : String) (sdp : Sdp) : Manager :=
  match peersGet m pid with
  | none => m
  | some peer =>
      if peer.connection.signalingState ≠ .haveLocalOffer then m
      else
        let c1 := peer.connection.setRemoteDesc sdp
        let c2 := drainPending c1 peer.pendingCandidates
        setPeer m pid { peer with connection := c2, pendingCandidates := [] }

/-- `handleIceCandidate(peerId, candidate)`: no-op without a peer or a
candidate; queued while no remote description exists, applied to the
transport immediately otherwise. -/
def handleIceCandidate (m : Manager) (pid : String) (cand : Option Candidate) : Manager :=
  match peersGet m pid, cand with
  | some peer, some c =>
      if peer.connection.remoteDescription = none then
        setPeer m pid { peer with pendingCandidates := peer.pendingCandidates ++ [c] }
      else
        setPeer m pid { peer with connection := peer.connection.addIce c }
  | _, _ => m

/-- `sendMicStatus(status)`. -/
def sendMicStatus (m : Manager) (status : Bool) : Manager :=
  sendToSignalingServer m (.micStatusMsg status)

/-- `toggleMic(enabled)`: sets the track's `enabled` flag when a stream
exists (warns otherwise), records the state, broadcasts it. -/
def toggleMic (m : Manager) (enabled : Bool) : Manager :=
  let m1 :=
    match m.localTrack with
    | some t => { m with localTrack := some { t with enabled := enabled } }
    | none => m
  sendMicStatus { m1 with isMicEnabled := enabled } enabled

/-- `isMicOn()`. -/
def isMicOn (m : Manager) : Bool := m.isMicEnabled

/-- `getMyId()`. -/
def getMyId (m : Manager) : String := m.myId

/-- `removePeer(peerId)`: closes the connection and deletes the entry;
a no-op for an unknown peer. -/
def removePeer (m : Manager) (pid : String) : Manager :=
  match peersGet m pid with
  | some _ => { m with peers := delKey m.peers pid }
  | none => m

/-- The `welcome` branch of `ws.onmessage`: with a truthy id, assigns
`myId` and initiates an offer to every listed user; with a falsy id the
frame falls through with no effect (no `welcome` case elsewhere).  Each
listed user carries the `fail` flag of its `createOffer`. -/
def handleWelcome (m : Manager) (id : String) (users : List (String × Bool)) : Manager :=
  if id ≠ "" then
    users.foldl (fun acc u => createOffer acc u.1 u.2) { m with myId := id }
  else m

/-- `addTracksToAllPeers`: attach then renegotiate, for every current
peer. -/
def addTracksToAllPeers (m : Manager) (fail : Bool) : Manager :=
  (m.peers.map (fun kv => kv.1)).foldl
    (fun acc pid => renegotiate (attachLocalAudio acc pid) pid fail) m

/-- `initLocalStream` (state-relevant part): installs the local audio
track with `enabled = false` and mic recorded off, then adds it to all
existing peers. -/
def initLocalStream (m : Manager) (trackId : String) (fail : Bool) : Manager :=
  addTracksToAllPeers
    { m with localTrack := some { id := trackId, enabled := false }, isMicEnabled := false }
    fail

/-- One external trigger of the event loop: an inbound signaling frame,
a local mic toggle, local media becoming ready, or a locally initiated
(re)negotiation.  `fail` flags model throws of the transport inside the
corresponding guarded block. -/
inductive Event where
  | welcome (id : String) (users : List (String × Bool))
  | userJoin (id : String) (fail : Bool)
  | userLeave (id : String)
  | offerEv (src : String) (sdp : Sdp)
  | answerEv (src : String) (sdp : Sdp)
  | iceEv (src : String) (cand : Option Candidate)
  | micEv (src : String) (status : Bool)
  | toggleEv (enabled : Bool)
  | streamReady (trackId : String) (fail : Bool)
  | renegEv (pid : String) (fail : Bool)
  | offerOut (pid : String) (fail : Bool)
deriving Repr

/-- Dispatch of `ws.onmessage` / `handleSignalingMessage` plus the local
triggers.  An inbound `mic-status` only invokes the UI callback. -/
def step (m : Manager) (e : Event) : Manager :=
  match e with
  | .welcome id users => handleWelcome m id users
  | .userJoin id fail => createOffer m id fail
  | .userLeave id => removePeer m id
  | .offerEv src sdp => handleOffer m src sdp
  | .answerEv src sdp => handleAnswer m src sdp
  | .iceEv src cand => handleIceCandidate m src cand
  | .micEv _ _ => m
  | .toggleEv b => toggleMic m b
  | .streamReady tid fail => initLocalStream m tid fail
  | .renegEv pid fail => renegotiate m pid fail
  | .offerOut pid fail => createOffer m pid fail

/-- A freshly constructed manager with an open signaling socket. -/
def mgrInit : Manager :=
  { peers := []
    myId := ""
    isMicEnabled := false
    localTrack := none
    wsOpen := true
    outbox := [] }

/-- The state after processing a sequence of events from construction. -/
def run (evs : List Event) : Manager :=
  evs.foldl step mgrInit

/-- A manager that has been assigned identifier `id` by `welcome` and has
no sessions yet. -/
def mgrWith (id : String) : Manager :=
  { mgrInit with myId := id }

/-- The politeness role of the session with `pid`, when one exists. -/
def rolesOf (m : Manager) (pid : String) : Option Bool :=
  (peersGet m pid).map (fun p => p.isPolite)

/-- The per-session state invariant maintained at every event boundary:
no offer construction is in flight, the session still owns the single
audio transceiver created at construction (so the `addTrack` fallback
has never run), and the candidate buffer is empty once a remote
description exists. -/
def GoodPeer (p : PeerConnection) : Prop :=
  p.makingOffer = false ∧
  p.audioSender.isSome = true ∧
  p.connection.transceiverCount = 1 ∧
  (p.connection.remoteDescription ≠ none → p.pendingCandidates = [])

/-- A predicate holding of every session in the table. -/
def peersAll (Q : PeerConnection → Prop) (m : Manager) : Prop :=
  ∀ kv ∈ m.peers, Q kv.2

/-- Whether an event is an inbound `welcome` frame. -/
def Event.isWelcomeEv : Event → Bool
  | .welcome _ _ => true
  | _ => false

theorem lookupKey_setKey (ps : List (String × α)) (pid pid' : String) (v : α) :
    lookupKey (setKey ps pid v) pid' =
      if pid = pid' then some v else lookupKey ps pid' := by
  induction ps with
  | nil => simp [setKey, lookupKey]
  | cons kv rest ih =>
      obtain ⟨k, w⟩ := kv
      by_cases hk : k = pid
      · subst hk
        by_cases h : k = pid' <;> simp [setKey, lookupKey, h]
      · by_cases h : k = pid'
        · subst h
          have hpk : ¬pid = k := fun hh => hk hh.symm
          simp [setKey, lookupKey, hk, hpk]
        · simp [setKey, lookupKey, hk, h, ih]

theorem mem_setKey {ps : List (String × α)} {pid : String} {v : α} {kv : String × α}
    (h : kv ∈ setKey ps pid v) : kv = (pid, v) ∨ kv ∈ ps := by
  induction ps with
  | nil => simpa [setKey] using h
  | cons kw rest ih =>
      obtain ⟨k, w⟩ := kw
      simp only [setKey] at h
      by_cases hk : k = pid
      · rw [if_pos hk] at h
        rcases List.mem_cons.mp h with h1 | h1
        · subst hk
          exact Or.inl h1
        · exact Or.inr (List.mem_cons_of_mem _ h1)
      · rw [if_neg hk] at h
        rcases List.mem_cons.mp h with h1 | h1
        · exact Or.inr (by simp [h1])
        · rcases ih h1 with h2 | h2
          · exact Or.inl h2
          · exact Or.inr (List.mem_cons_of_mem _ h2)

theorem lookupKey_mem {ps : List (String × α)} {pid : String} {v : α}
    (h : lookupKey ps pid = some v) : (pid, v) ∈ ps := by
  induction ps with
  | nil => simp [lookupKey] at h
  | cons kw rest ih =>
      obtain ⟨k, w⟩ := kw
      simp only [lookupKey] at h
      by_cases hk : k = pid
      · rw [if_pos hk] at h
        cases h
        simp [hk]
      · rw [if_neg hk] at h
        exact List.mem_cons_of_mem _ (ih h)

theorem mem_delKey {ps : List (String × α)} {pid : String} {kv : String × α}
    (h : kv ∈ delKey ps pid) : kv ∈ ps := by
  induction ps with
  | nil => simp [delKey] at h
  | cons kw rest ih =>
      obtain ⟨k, w⟩ := kw
      simp only [delKey] at h
      by_cases hk : k = pid
      · rw [if_pos hk] at h
        exact List.mem_cons_of_mem _ (ih h)
      · rw [if_neg hk] at h
        rcases List.mem_cons.mp h with h1 | h1
        · simp [h1]
        · exact List.mem_cons_of_mem _ (ih h1)

theorem lookupKey_delKey_self (ps : List (String × α)) (id : String) :
    lookupKey (delKey ps id) id = none := by
  induction ps with
  | nil => rfl
  | cons kv rest ih =>
      obtain ⟨k, v⟩ := kv
      simp only [delKey]
      by_cases hk : k = id
      · rw [if_pos hk]
        exact ih
      · rw [if_neg hk]
        simp only [lookupKey, if_neg hk]
        exact ih

theorem lookupKey_delKey_ne (ps : List (String × α)) (id pid' : String) (hne : pid' ≠ id) :
    lookupKey (delKey ps id) pid' = lookupKey ps pid' := by
  induction ps with
  | nil => rfl
  | cons kv rest ih =>
      obtain ⟨k, v⟩ := kv
      simp only [delKey]
      by_cases hk : k = id
      · subst hk
        have h2 : ¬k = pid' := fun hh => hne hh.symm
        rw [if_pos rfl]
        simp only [lookupKey, if_neg h2]
        exact ih
      · rw [if_neg hk]
        simp only [lookupKey]
        by_cases hkp : k = pid'
        · rw [if_pos hkp, if_pos hkp]
        · rw [if_neg hkp, if_neg hkp]
          exact ih

theorem peersGet_setPeer (m : Manager) (pid : String) (p : PeerConnection) (pid' : String) :
    peersGet (setPeer m pid p) pid' =
      if pid = pid' then some p else peersGet m pid' := by
  simp [peersGet, setPeer, lookupKey_setKey]

theorem peersAll_setPeer {Q : PeerConnection → Prop} {m : Manager} {pid : String}
    {p : PeerConnection} (hm : peersAll Q m) (hp : Q p) : peersAll Q (setPeer m pid p) := by
  intro kv hkv
  rcases mem_setKey hkv with h | h
  · subst h; exact hp
  · exact hm kv h

theorem peersAll_get {Q : PeerConnection → Prop} {m : Manager} {pid : String}
    {p : PeerConnection} (hm : peersAll Q m) (h : peersGet m pid = some p) : Q p :=
  hm (pid, p) (lookupKey_mem h)

@[simp] theorem setLocalDesc_remoteDescription (c : Connection) (d : Sdp) :
    (c.setLocalDesc d).remoteDescription = c.remoteDescription := rfl

@[simp] theorem setLocalDesc_localDescription (c : Connection) (d : Sdp) :
    (c.setLocalDesc d).localDescription = some d := rfl

@[simp] theorem setLocalDesc_appliedCandidates (c : Connection) (d : Sdp) :
    (c.setLocalDesc d).appliedCandidates = c.appliedCandidates := rfl

@[simp] theorem setLocalDesc_transceiverCount (c : Connection) (d : Sdp) :
    (c.setLocalDesc d).transceiverCount = c.transceiverCount := rfl

@[simp] theorem setRemoteDesc_remoteDescription (c : Connection) (d : Sdp) :
    (c.setRemoteDesc d).remoteDescription = some d := rfl

@[simp] theorem setRemoteDesc_localDescription (c : Connection) (d : Sdp) :
    (c.setRemoteDesc d).localDescription = c.localDescription := rfl

@[simp] theorem setRemoteDesc_appliedCandidates (c : Connection) (d : Sdp) :
    (c.setRemoteDesc d).appliedCandidates = c.appliedCandidates := rfl

@[simp] theorem setRemoteDesc_transceiverCount (c : Connection) (d : Sdp) :
    (c.setRemoteDesc d).transceiverCount = c.transceiverCount := rfl

@[simp] theorem addIce_signalingState (c : Connection) (x : Candidate) :
    (c.addIce x).signalingState = c.signalingState := rfl

@[simp] theorem addIce_remoteDescription (c : Connection) (x : Candidate) :
    (c.addIce x).remoteDescription = c.remoteDescription := rfl

@[simp] theorem addIce_localDescription (c : Connection) (x : Candidate) :
    (c.addIce x).localDescription = c.localDescription := rfl

@[simp] theorem addIce_appliedCandidates (c : Connection) (x : Candidate) :
    (c.addIce x).appliedCandidates = c.appliedCandidates ++ [x] := rfl

@[simp] theorem addIce_transceiverCount (c : Connection) (x : Candidate) :
    (c.addIce x).transceiverCount = c.transceiverCount := rfl

@[simp] theorem drainPending_signalingState (l : List Candidate) (c : Connection) :
    (drainPending c l).signalingState = c.signalingState := by
  induction l generalizing c with
  | nil => rfl
  | cons x xs ih => simp [drainPending, List.foldl_cons] at ih ⊢; simp [ih]

@[simp] theorem drainPending_remoteDescription (l : List Candidate) (c : Connection) :
    (drainPending c l).remoteDescription = c.remoteDescription := by
  induction l generalizing c with
  | nil => rfl
  | cons x xs ih => simp [drainPending, List.foldl_cons] at ih ⊢; simp [ih]

@[simp] theorem drainPending_localDescription (l : List Candidate) (c : Connection) :
    (drainPending c l).localDescription = c.localDescription := by
  induction l generalizing c with
  | nil => rfl
  | cons x xs ih => simp [drainPending, List.foldl_cons] at ih ⊢; simp [ih]

@[simp] theorem drainPending_appliedCandidates (l : List Candidate) (c : Connection) :
    (drainPending c l).appliedCandidates = c.appliedCandidates ++ l := by
  induction l generalizing c with
  | nil => simp [drainPending]
  | cons x xs ih =>
      simp only [drainPending, List.foldl_cons] at ih ⊢
      rw [ih]
      simp

@[simp] theorem drainPending_transceiverCount (l : List Candidate) (c : Connection) :
    (drainPending c l).transceiverCount = c.transceiverCount := by
  induction l generalizing c with
  | nil => rfl
  | cons x xs ih => simp [drainPending, List.foldl_cons] at ih ⊢; simp [ih]

@[simp] theorem setPeer_myId (m : Manager) (pid : String) (p : PeerConnection) :
    (setPeer m pid p).myId = m.myId := rfl

@[simp] theorem setPeer_wsOpen (m : Manager) (pid : String) (p : PeerConnection) :
    (setPeer m pid p).wsOpen = m.wsOpen := rfl

@[simp] theorem setPeer_localTrack (m : Manager) (pid : String) (p : PeerConnection) :
    (setPeer m pid p).localTrack = m.localTrack := rfl

@[simp] theorem setPeer_isMicEnabled (m : Manager) (pid : String) (p : PeerConnection) :
    (setPeer m pid p).isMicEnabled = m.isMicEnabled := rfl

@[simp] theorem setPeer_outbox (m : Manager) (pid : String) (p : PeerConnection) :
    (setPeer m pid p).outbox = m.outbox := rfl

@[simp] theorem sendToSignalingServer_myId (m : Manager) (msg : SignalMsg) :
    (sendToSignalingServer m msg).myId = m.myId := by
  unfold sendToSignalingServer; split <;> rfl

@[simp] theorem sendToSignalingServer_wsOpen (m : Manager) (msg : SignalMsg) :
    (sendToSignalingServer m msg).wsOpen = m.wsOpen := by
  unfold sendToSignalingServer; split <;> rfl

@[simp] theorem sendToSignalingServer_localTrack (m : Manager) (msg : SignalMsg) :
    (sendToSignalingServer m msg).localTrack = m.localTrack := by
  unfold sendToSignalingServer; split <;> rfl

@[simp] theorem sendToSignalingServer_isMicEnabled (m : Manager) (msg : SignalMsg) :
    (sendToSignalingServer m msg).isMicEnabled = m.isMicEnabled := by
  unfold sendToSignalingServer; split <;> rfl

@[simp] theorem sendToSignalingServer_peers (m : Manager) (msg : SignalMsg) :
    (sendToSignalingServer m msg).peers = m.peers := by
  unfold sendToSignalingServer; split <;> rfl

@[simp] theorem createPeerConnection_myId (m : Manager) (pid : String) (pol : Bool) :
    (createPeerConnection m pid pol).myId = m.myId := by
  unfold createPeerConnection; split <;> rfl

@[simp] theorem createPeerConnection_wsOpen (m : Manager) (pid : String) (pol : Bool) :
    (createPeerConnection m pid pol).wsOpen = m.wsOpen := by
  unfold createPeerConnection; split <;> rfl

@[simp] theorem createPeerConnection_localTrack (m : Manager) (pid : String) (pol : Bool) :
    (createPeerConnection m pid pol).localTrack = m.localTrack := by
  unfold createPeerConnection; split <;> rfl

@[simp] theorem createPeerConnection_isMicEnabled (m : Manager) (pid : String) (pol : Bool) :
    (createPeerConnection m pid pol).isMicEnabled = m.isMicEnabled := by
  unfold createPeerConnection; split <;> rfl

@[simp] theorem createPeerConnection_outbox (m : Manager) (pid : String) (pol : Bool) :
    (createPeerConnection m pid pol).outbox = m.outbox := by
  unfold createPeerConnection; split <;> rfl

@[simp] theorem attachLocalAudio_myId (m : Manager) (pid : String) :
    (attachLocalAudio m pid).myId = m.myId := by
  unfold attachLocalAudio
  split
  · split
    · split <;> rfl
    · rfl
  · rfl

@[simp] theorem attachLocalAudio_wsOpen (m : Manager) (pid : String) :
    (attachLocalAudio m pid).wsOpen = m.wsOpen := by
  unfold attachLocalAudio
  split
  · split
    · split <;> rfl
    · rfl
  · rfl

@[simp] theorem attachLocalAudio_localTrack (m : Manager) (pid : String) :
    (attachLocalAudio m pid).localTrack = m.localTrack := by
  unfold attachLocalAudio
  split
  · split
    · split <;> rfl
    · rfl
  · rfl

@[simp] theorem attachLocalAudio_isMicEnabled (m : Manager) (pid : String) :
    (attachLocalAudio m pid).isMicEnabled = m.isMicEnabled := by
  unfold attachLocalAudio
  split
  · split
    · split <;> rfl
    · rfl
  · rfl

@[simp] theorem attachLocalAudio_outbox (m : Manager) (pid : String) :
    (attachLocalAudio m pid).outbox = m.outbox := by
  unfold attachLocalAudio
  split
  · split
    · split <;> rfl
    · rfl
  · rfl

@[simp] theorem setMakingOffer_myId (m : Manager) (pid : String) (b : Bool) :
    (setMakingOffer m pid b).myId = m.myId := by
  unfold setMakingOffer; split <;> rfl

@[simp] theorem setMakingOffer_wsOpen (m : Manager) (pid : String) (b : Bool) :
    (setMakingOffer m pid b).wsOpen = m.wsOpen := by
  unfold setMakingOffer; split <;> rfl

@[simp] theorem setMakingOffer_localTrack (m : Manager) (pid : String) (b : Bool) :
    (setMakingOffer m pid b).localTrack = m.localTrack := by
  unfold setMakingOffer; split <;> rfl

@[simp] theorem setMakingOffer_isMicEnabled (m : Manager) (pid : String) (b : Bool) :
    (setMakingOffer m pid b).isMicEnabled = m.isMicEnabled := by
  unfold setMakingOffer; split <;> rfl

@[simp] theorem setMakingOffer_outbox (m : Manager) (pid : String) (b : Bool) :
    (setMakingOffer m pid b).outbox = m.outbox := by
  unfold setMakingOffer; split <;> rfl

@[simp] theorem createOffer_myId (m : Manager) (pid : String) (fail : Bool) :
    (createOffer m pid fail).myId = m.myId := by
  unfold createOffer
  dsimp only
  repeat' split
  all_goals simp

@[simp] theorem createOffer_wsOpen (m : Manager) (pid : String) (fail : Bool) :
    (createOffer m pid fail).wsOpen = m.wsOpen := by
  unfold createOffer
  dsimp only
  repeat' split
  all_goals simp

@[simp] theorem createOffer_localTrack (m : Manager) (pid : String) (fail : Bool) :
    (createOffer m pid fail).localTrack = m.localTrack := by
  unfold createOffer
  dsimp only
  repeat' split
  all_goals simp

@[simp] theorem createOffer_isMicEnabled (m : Manager) (pid : String) (fail : Bool) :
    (createOffer m pid fail).isMicEnabled = m.isMicEnabled := by
  unfold createOffer
  dsimp only
  repeat' split
  all_goals simp

@[simp] theorem renegotiate_myId (m : Manager) (pid : String) (fail : Bool) :
    (renegotiate m pid fail).myId = m.myId := by
  unfold renegotiate
  dsimp only
  repeat' split
  all_goals simp

@[simp] theorem renegotiate_wsOpen (m : Manager) (pid : String) (fail : Bool) :
    (renegotiate m pid fail).wsOpen = m.wsOpen := by
  unfold renegotiate
  dsimp only
  repeat' split
  all_goals simp

@[simp] theorem renegotiate_localTrack (m : Manager) (pid : String) (fail : Bool) :
    (renegotiate m pid fail).localTrack = m.localTrack := by
  unfold renegotiate
  dsimp only
  repeat' split
  all_goals simp

@[simp] theorem renegotiate_isMicEnabled (m : Manager) (pid : String) (fail : Bool) :
    (renegotiate m pid fail).isMicEnabled = m.isMicEnabled := by
  unfold renegotiate
  dsimp only
  repeat' split
  all_goals simp

@[simp] theorem handleOffer_myId (m : Manager) (pid : String) (sdp : Sdp) :
    (handleOffer m pid sdp).myId = m.myId := by
  unfold handleOffer
  dsimp only
  repeat' split
  all_goals simp

@[simp] theorem handleOffer_wsOpen (m : Manager) (pid : String) (sdp : Sdp) :
    (handleOffer m pid sdp).wsOpen = m.wsOpen := by
  unfold handleOffer
  dsimp only
  repeat' split
  all_goals simp

@[simp] theorem handleAnswer_myId (m : Manager) (pid : String) (sdp : Sdp) :
    (handleAnswer m pid sdp).myId = m.myId := by
  unfold handleAnswer
  dsimp only
  repeat' split
  all_goals simp

@[simp] theorem handleAnswer_wsOpen (m : Manager) (pid : String) (sdp : Sdp) :
    (handleAnswer m pid sdp).wsOpen = m.wsOpen := by
  unfold handleAnswer
  dsimp only
  repeat' split
  all_goals simp

@[simp] theorem handleIceCandidate_myId (m : Manager) (pid : String) (cand : Option Candidate) :
    (handleIceCandidate m pid cand).myId = m.myId := by
  unfold handleIceCandidate
  repeat' split
  all_goals simp

@[simp] theorem handleIceCandidate_wsOpen (m : Manager) (pid : String) (cand : Option Candidate) :
    (handleIceCandidate m pid cand).wsOpen = m.wsOpen := by
  unfold handleIceCandidate
  repeat' split
  all_goals simp

@[simp] theorem toggleMic_myId (m : Manager) (b : Bool) :
    (toggleMic m b).myId = m.myId := by
  unfold toggleMic sendMicStatus
  split <;> simp

@[simp] theorem toggleMic_wsOpen (m : Manager) (b : Bool) :
    (toggleMic m b).wsOpen = m.wsOpen := by
  unfold toggleMic sendMicStatus
  split <;> simp

@[simp] theorem removePeer_myId (m : Manager) (pid : String) :
    (removePeer m pid).myId = m.myId := by
  unfold removePeer; split <;> rfl

@[simp] theorem removePeer_wsOpen (m : Manager) (pid : String) :
    (removePeer m pid).wsOpen = m.wsOpen := by
  unfold removePeer; split <;> rfl

@[simp] theorem removePeer_localTrack (m : Manager) (pid : String) :
    (removePeer m pid).localTrack = m.localTrack := by
  unfold removePeer; split <;> rfl

@[simp] theorem removePeer_isMicEnabled (m : Manager) (pid : String) :
    (removePeer m pid).isMicEnabled = m.isMicEnabled := by
  unfold removePeer; split <;> rfl

@[simp] theorem removePeer_outbox (m : Manager) (pid : String) :
    (removePeer m pid).outbox = m.outbox := by
  unfold removePeer; split <;> rfl

theorem foldl_createOffer_myId (users : List (String × Bool)) (m : Manager) :
    (users.foldl (fun acc u => createOffer acc u.1 u.2) m).myId = m.myId := by
  induction users generalizing m with
  | nil => rfl
  | cons u us ih => simp [List.foldl_cons, ih]

theorem addTracksToAllPeers_myId (m : Manager) (fail : Bool) :
    (addTracksToAllPeers m fail).myId = m.myId := by
  unfold addTracksToAllPeers
  generalize (m.peers.map (fun kv => kv.1)) = pids
  induction pids generalizing m with
  | nil => rfl
  | cons p ps ih => simp [List.foldl_cons, ih]

@[simp] theorem initLocalStream_myId (m : Manager) (tid : String) (fail : Bool) :
    (initLocalStream m tid fail).myId = m.myId := by
  unfold initLocalStream
  rw [addTracksToAllPeers_myId]

theorem peersAll_send {Q : PeerConnection → Prop} {m : Manager} (msg : SignalMsg)
    (hm : peersAll Q m) : peersAll Q (sendToSignalingServer m msg) := by
  intro kv hkv
  rw [sendToSignalingServer_peers] at hkv
  exact hm kv hkv

theorem goodPeer_newPeer (pid : String) (pol : Bool) :
    GoodPeer
      { id := pid, connection := newConnection, audioSender := some { track := none },
        isPolite := pol, makingOffer := false, pendingCandidates := [] } := by
  simp [GoodPeer, newConnection]

theorem good_createPeerConnection {m : Manager} (hm : peersAll GoodPeer m)
    (pid : String) (pol : Bool) : peersAll GoodPeer (createPeerConnection m pid pol) := by
  rcases hp : peersGet m pid with _ | p <;> simp only [createPeerConnection, hp]
  · exact peersAll_setPeer hm (goodPeer_newPeer pid pol)
  · exact hm

theorem good_attachLocalAudio {m : Manager} (hm : peersAll GoodPeer m) (pid : String) :
    peersAll GoodPeer (attachLocalAudio m pid) := by
  rcases hp : peersGet m pid with _ | peer <;>
    rcases ht : m.localTrack with _ | t <;>
      simp only [attachLocalAudio, hp, ht]
  · exact hm
  · exact hm
  · exact hm
  · have hg := peersAll_get hm hp
    rcases hs : peer.audioSender with _ | snd
    · simp [GoodPeer, hs] at hg
    · simp only [hs]
      split
      · exact hm
      · refine peersAll_setPeer hm ?_
        obtain ⟨h1, h2, h3, h4⟩ := hg
        exact ⟨h1, rfl, h3, h4⟩

theorem good_setMakingOfferFalse {m : Manager} (hm : peersAll GoodPeer m) (pid : String) :
    peersAll GoodPeer (setMakingOffer m pid false) := by
  rcases hp : peersGet m pid with _ | p <;> simp only [setMakingOffer, hp]
  · exact hm
  · obtain ⟨h1, h2, h3, h4⟩ := peersAll_get hm hp
    exact peersAll_setPeer hm ⟨rfl, h2, h3, h4⟩

theorem good_createOffer {m : Manager} (hm : peersAll GoodPeer m) (pid : String) (fail : Bool) :
    peersAll GoodPeer (createOffer m pid fail) := by
  unfold createOffer
  dsimp only
  have h1 : peersAll GoodPeer (createPeerConnection m pid (decide (m.myId < pid))) :=
    good_createPeerConnection hm pid _
  rcases hp : peersGet (createPeerConnection m pid (decide (m.myId < pid))) pid with _ | peer <;>
    simp only [hp]
  · exact h1
  · split
    · exact h1
    · have h2 : peersAll GoodPeer
          (attachLocalAudio (createPeerConnection m pid (decide (m.myId < pid))) pid) :=
        good_attachLocalAudio h1 pid
      split
      · exact good_setMakingOfferFalse h2 pid
      · rcases hq : peersGet
            (attachLocalAudio (createPeerConnection m pid (decide (m.myId < pid))) pid) pid
          with _ | p2 <;> simp only [hq]
        · exact h2
        · obtain ⟨g1, g2, g3, g4⟩ := peersAll_get h2 hq
          refine peersAll_send _ (peersAll_setPeer h2 ?_)
          refine ⟨rfl, g2, ?_, ?_⟩
          · simpa using g3
          · simpa using g4

theorem good_renegotiate {m : Manager} (hm : peersAll GoodPeer m) (pid : String) (fail : Bool) :
    peersAll GoodPeer (renegotiate m pid fail) := by
  rcases hp : peersGet m pid with _ | peer <;> simp only [renegotiate, hp]
  · exact hm
  · split
    · exact hm
    · split
      · exact hm
      · split
        · exact hm
        · split
          · exact good_setMakingOfferFalse hm pid
          · obtain ⟨g1, g2, g3, g4⟩ := peersAll_get hm hp
            refine peersAll_send _ (peersAll_setPeer hm ?_)
            refine ⟨rfl, g2, ?_, ?_⟩
            · simpa using g3
            · simpa using g4

theorem good_handleOffer {m : Manager} (hm : peersAll GoodPeer m) (pid : String) (sdp : Sdp) :
    peersAll GoodPeer (handleOffer m pid sdp) := by
  unfold handleOffer
  dsimp only
  have h1 : peersAll GoodPeer
      (match peersGet m pid with
       | some _ => m
       | none => createPeerConnection m pid (decide (m.myId < pid))) := by
    rcases hp : peersGet m pid with _ | p <;> simp only [hp]
    · exact good_createPeerConnection hm pid _
    · exact hm
  set m1 :=
    (match peersGet m pid with
     | some _ => m
     | none => createPeerConnection m pid (decide (m.myId < pid))) with hm1
  rcases hp : peersGet m1 pid with _ | peer <;> simp only [hp]
  · exact h1
  · split
    · exact h1
    · have h2 : peersAll GoodPeer (attachLocalAudio m1 pid) := good_attachLocalAudio h1 pid
      rcases hq : peersGet (attachLocalAudio m1 pid) pid with _ | p2 <;> simp only [hq]
      · exact h2
      · obtain ⟨g1, g2, g3, g4⟩ := peersAll_get h2 hq
        refine peersAll_send _ (peersAll_setPeer h2 ?_)
        refine ⟨g1, g2, ?_, ?_⟩
        · simpa using g3
        · intro _
          rfl

theorem good_handleAnswer {m : Manager} (hm : peersAll GoodPeer m) (pid : String) (sdp : Sdp) :
    peersAll GoodPeer (handleAnswer m pid sdp) := by
  rcases hp : peersGet m pid with _ | peer <;> simp only [handleAnswer, hp]
  · exact hm
  · split
    · exact hm
    · obtain ⟨g1, g2, g3, g4⟩ := peersAll_get hm hp
      refine peersAll_setPeer hm ?_
      refine ⟨g1, g2, ?_, ?_⟩
      · simpa using g3
      · intro _
        rfl

theorem good_handleIceCandidate {m : Manager} (hm : peersAll GoodPeer m) (pid : String)
    (cand : Option Candidate) : peersAll GoodPeer (handleIceCandidate m pid cand) := by
  rcases hp : peersGet m pid with _ | peer <;> rcases hc : cand with _ | c <;>
    simp only [handleIceCandidate, hp, hc]
  · exact hm
  · exact hm
  · exact hm
  · obtain ⟨g1, g2, g3, g4⟩ := peersAll_get hm hp
    split
    · next hrd =>
        refine peersAll_setPeer hm ?_
        refine ⟨g1, g2, g3, ?_⟩
        intro h
        simp [hrd] at h
    · next hrd =>
        refine peersAll_setPeer hm ?_
        refine ⟨g1, g2, ?_, ?_⟩
        · simpa using g3
        · intro _
          exact g4 hrd

theorem good_toggleMic {m : Manager} (hm : peersAll GoodPeer m) (b : Bool) :
    peersAll GoodPeer (toggleMic m b) := by
  unfold toggleMic sendMicStatus
  refine peersAll_send _ ?_
  intro kv hkv
  apply hm
  rcases ht : m.localTrack with _ | t
  · simpa [ht] using hkv
  · simpa [ht] using hkv

theorem good_removePeer {m : Manager} (hm : peersAll GoodPeer m) (pid : String) :
    peersAll GoodPeer (removePeer m pid) := by
  rcases hp : peersGet m pid with _ | p <;> simp only [removePeer, hp]
  · exact hm
  · intro kv hkv
    exact hm kv (mem_delKey hkv)

theorem good_foldlCreateOffer (users : List (String × Bool)) {m : Manager}
    (hm : peersAll GoodPeer m) :
    peersAll GoodPeer (users.foldl (fun acc u => createOffer acc u.1 u.2) m) := by
  induction users generalizing m with
  | nil => exact hm
  | cons u us ih => exact ih (good_createOffer hm u.1 u.2)

theorem good_handleWelcome {m : Manager} (hm : peersAll GoodPeer m) (id : String)
    (users : List (String × Bool)) : peersAll GoodPeer (handleWelcome m id users) := by
  unfold handleWelcome
  split
  · refine good_foldlCreateOffer users ?_
    intro kv hkv
    exact hm kv hkv
  · exact hm

theorem good_addTracksToAllPeers {m : Manager} (hm : peersAll GoodPeer m) (fail : Bool) :
    peersAll GoodPeer (addTracksToAllPeers m fail) := by
  unfold addTracksToAllPeers
  generalize (m.peers.map (fun kv => kv.1)) = pids
  induction pids generalizing m with
  | nil => exact hm
  | cons p ps ih =>
      simp only [List.foldl_cons]
      exact ih (good_renegotiate (good_attachLocalAudio hm p) p fail)

theorem good_initLocalStream {m : Manager} (hm : peersAll GoodPeer m) (tid : String)
    (fail : Bool) : peersAll GoodPeer (initLocalStream m tid fail) := by
  unfold initLocalStream
  refine good_addTracksToAllPeers ?_ fail
  intro kv hkv
  exact hm kv hkv

theorem good_step {m : Manager} (hm : peersAll GoodPeer m) (e : Event) :
    peersAll GoodPeer (step m e) := by
  cases e with
  | welcome id users => exact good_handleWelcome hm id users
  | userJoin id fail => exact good_createOffer hm id fail
  | userLeave id => exact good_removePeer hm id
  | offerEv src sdp => exact good_handleOffer hm src sdp
  | answerEv src sdp => exact good_handleAnswer hm src sdp
  | iceEv src cand => exact good_handleIceCandidate hm src cand
  | micEv src status => exact hm
  | toggleEv b => exact good_toggleMic hm b
  | streamReady tid fail => exact good_initLocalStream hm tid fail
  | renegEv pid fail => exact good_renegotiate hm pid fail
  | offerOut pid fail => exact good_createOffer hm pid fail

theorem good_run (evs : List Event) : peersAll GoodPeer (run evs) := by
  have h : ∀ (m : Manager), peersAll GoodPeer m →
      peersAll GoodPeer (evs.foldl step m) := by
    induction evs with
    | nil => exact fun m hm => hm
    | cons e es ih => exact fun m hm => ih _ (good_step hm e)
  refine h mgrInit ?_
  intro kv hkv
  simp [mgrInit] at hkv

theorem rolesOf_setPeer_preserve {m : Manager} {pid : String} {p q : PeerConnection}
    (hp : peersGet m pid = some q) (hpol : p.isPolite = q.isPolite) {pid' : String} {b : Bool}
    (h : rolesOf m pid' = some b) : rolesOf (setPeer m pid p) pid' = some b := by
  rw [rolesOf, peersGet_setPeer]
  split
  · next heq =>
      subst heq
      rw [rolesOf, hp] at h
      simp only [Option.map_some'] at h ⊢
      rw [hpol]
      exact h
  · exact h

theorem rolesOf_send {m : Manager} (msg : SignalMsg) (pid' : String) :
    rolesOf (sendToSignalingServer m msg) pid' = rolesOf m pid' := by
  rw [rolesOf, rolesOf, peersGet, peersGet, sendToSignalingServer_peers]

theorem rolesOf_createPeerConnection {m : Manager} {pid' : String} {b : Bool}
    (h : rolesOf m pid' = some b) (pid : String) (pol : Bool) :
    rolesOf (createPeerConnection m pid pol) pid' = some b := by
  rcases hp : peersGet m pid with _ | p <;> simp only [createPeerConnection, hp]
  · rw [rolesOf, peersGet_setPeer]
    split
    · next heq =>
        subst heq
        rw [rolesOf, hp] at h
        simp at h
    · exact h
  · exact h

theorem rolesOf_createPeerConnection_new {m : Manager} {pid : String}
    (h : peersGet m pid = none) (pol : Bool) :
    rolesOf (createPeerConnection m pid pol) pid = some pol := by
  simp only [createPeerConnection, h]
  rw [rolesOf, peersGet_setPeer]
  simp

theorem rolesOf_attachLocalAudio {m : Manager} {pid' : String} {b : Bool}
    (h : rolesOf m pid' = some b) (pid : String) :
    rolesOf (attachLocalAudio m pid) pid' = some b := by
  rcases hp : peersGet m pid with _ | peer <;>
    rcases ht : m.localTrack with _ | t <;>
      simp only [attachLocalAudio, hp, ht]
  · exact h
  · exact h
  · exact h
  · rcases hs : peer.audioSender with _ | snd <;> simp only [hs]
    · refine rolesOf_setPeer_preserve hp ?_ h
      rfl
    · split
      · exact h
      · refine rolesOf_setPeer_preserve hp ?_ h
        rfl

theorem rolesOf_setMakingOffer {m : Manager} {pid' : String} {b : Bool}
    (h : rolesOf m pid' = some b) (pid : String) (v : Bool) :
    rolesOf (setMakingOffer m pid v) pid' = some b := by
  rcases hp : peersGet m pid with _ | p <;> simp only [setMakingOffer, hp]
  · exact h
  · refine rolesOf_setPeer_preserve hp ?_ h
    rfl

theorem rolesOf_createOffer {m : Manager} {pid' : String} {b : Bool}
    (h : rolesOf m pid' = some b) (pid : String) (fail : Bool) :
    rolesOf (createOffer m pid fail) pid' = some b := by
  unfold createOffer
  dsimp only
  have h1 : rolesOf (createPeerConnection m pid (decide (m.myId < pid))) pid' = some b :=
    rolesOf_createPeerConnection h pid _
  rcases hp : peersGet (createPeerConnection m pid (decide (m.myId < pid))) pid with _ | peer <;>
    simp only [hp]
  · exact h1
  · split
    · exact h1
    · have h2 : rolesOf (attachLocalAudio (createPeerConnection m pid (decide (m.myId < pid)))
          pid) pid' = some b := rolesOf_attachLocalAudio h1 pid
      split
      · exact rolesOf_setMakingOffer h2 pid false
      · rcases hq : peersGet
            (attachLocalAudio (createPeerConnection m pid (decide (m.myId < pid))) pid) pid
          with _ | p2 <;> simp only [hq]
        · exact h2
        · rw [rolesOf_send]
          refine rolesOf_setPeer_preserve hq ?_ h2
          rfl

theorem rolesOf_createOffer_new {m : Manager} {pid : String}
    (h : peersGet m pid = none) (fail : Bool) :
    rolesOf (createOffer m pid fail) pid = some (decide (m.myId < pid)) := by
  have h1 : rolesOf (createPeerConnection m pid (decide (m.myId < pid))) pid =
      some (decide (m.myId < pid)) := rolesOf_createPeerConnection_new h _
  unfold createOffer
  dsimp only
  rcases hp : peersGet (createPeerConnection m pid (decide (m.myId < pid))) pid with _ | peer <;>
    simp only [hp]
  · exact h1
  · split
    · exact h1
    · have h2 : rolesOf (attachLocalAudio (createPeerConnection m pid (decide (m.myId < pid)))
          pid) pid = some (decide (m.myId < pid)) := rolesOf_attachLocalAudio h1 pid
      split
      · exact rolesOf_setMakingOffer h2 pid false
      · rcases hq : peersGet
            (attachLocalAudio (createPeerConnection m pid (decide (m.myId < pid))) pid) pid
          with _ | p2 <;> simp only [hq]
        · exact h2
        · rw [rolesOf_send]
          refine rolesOf_setPeer_preserve hq ?_ h2
          rfl

theorem rolesOf_renegotiate {m : Manager} {pid' : String} {b : Bool}
    (h : rolesOf m pid' = some b) (pid : String) (fail : Bool) :
    rolesOf (renegotiate m pid fail) pid' = some b := by
  rcases hp : peersGet m pid with _ | peer <;> simp only [renegotiate, hp]
  · exact h
  · split
    · exact h
    · split
      · exact h
      · split
        · exact h
        · split
          · exact rolesOf_setMakingOffer h pid false
          · rw [rolesOf_send]
            refine rolesOf_setPeer_preserve hp ?_ h
            rfl

theorem rolesOf_handleOffer {m : Manager} {pid' : String} {b : Bool}
    (h : rolesOf m pid' = some b) (pid : String) (sdp : Sdp) :
    rolesOf (handleOffer m pid sdp) pid' = some b := by
  unfold handleOffer
  dsimp only
  have h1 : rolesOf
      (match peersGet m pid with
       | some _ => m
       | none => createPeerConnection m pid (decide (m.myId < pid))) pid' = some b := by
    rcases hp : peersGet m pid with _ | p <;> simp only [hp]
    · exact rolesOf_createPeerConnection h pid _
    · exact h
  set m1 :=
    (match peersGet m pid with
     | some _ => m
     | none => createPeerConnection m pid (decide (m.myId < pid))) with hm1
  rcases hp : peersGet m1 pid with _ | peer <;> simp only [hp]
  · exact h1
  · split
    · exact h1
    · have h2 : rolesOf (attachLocalAudio m1 pid) pid' = some b :=
        rolesOf_attachLocalAudio h1 pid
      rcases hq : peersGet (attachLocalAudio m1 pid) pid with _ | p2 <;> simp only [hq]
      · exact h2
      · rw [rolesOf_send]
        refine rolesOf_setPeer_preserve hq ?_ h2
        rfl

theorem rolesOf_handleOffer_new {m : Manager} {pid : String}
    (h : peersGet m pid = none) (sdp : Sdp) :
    rolesOf (handleOffer m pid sdp) pid = some (decide (m.myId < pid)) := by
  have h1 : rolesOf (createPeerConnection m pid (decide (m.myId < pid))) pid =
      some (decide (m.myId < pid)) := rolesOf_createPeerConnection_new h _
  unfold handleOffer
  dsimp only
  rw [h]
  dsimp only
  rcases hp : peersGet (createPeerConnection m pid (decide (m.myId < pid))) pid with _ | peer <;>
    simp only [hp]
  · exact h1
  · split
    · exact h1
    · have h2 : rolesOf (attachLocalAudio (createPeerConnection m pid (decide (m.myId < pid)))
          pid) pid = some (decide (m.myId < pid)) := rolesOf_attachLocalAudio h1 pid
      rcases hq : peersGet
          (attachLocalAudio (createPeerConnection m pid (decide (m.myId < pid))) pid) pid
        with _ | p2 <;> simp only [hq]
      · exact h2
      · rw [rolesOf_send]
        refine rolesOf_setPeer_preserve hq ?_ h2
        rfl

theorem rolesOf_handleAnswer {m : Manager} {pid' : String} {b : Bool}
    (h : rolesOf m pid' = some b) (pid : String) (sdp : Sdp) :
    rolesOf (handleAnswer m pid sdp) pid' = some b := by
  rcases hp : peersGet m pid with _ | peer <;> simp only [handleAnswer, hp]
  · exact h
  · split
    · exact h
    · refine rolesOf_setPeer_preserve hp ?_ h
      rfl

theorem rolesOf_handleIceCandidate {m : Manager} {pid' : String} {b : Bool}
    (h : rolesOf m pid' = some b) (pid : String) (cand : Option Candidate) :
    rolesOf (handleIceCandidate m pid cand) pid' = some b := by
  rcases hp : peersGet m pid with _ | peer <;> rcases hc : cand with _ | c <;>
    simp only [handleIceCandidate, hp, hc]
  · exact h
  · exact h
  · exact h
  · split
    · refine rolesOf_setPeer_preserve hp ?_ h
      rfl
    · refine rolesOf_setPeer_preserve hp ?_ h
      rfl

theorem rolesOf_toggleMic {m : Manager} {pid' : String} {b : Bool}
    (h : rolesOf m pid' = some b) (v : Bool) :
    rolesOf (toggleMic m v) pid' = some b := by
  unfold toggleMic sendMicStatus
  rw [rolesOf_send]
  rcases ht : m.localTrack with _ | t <;> simp only [ht] <;> exact h

theorem rolesOf_foldlCreateOffer (users : List (String × Bool)) {m : Manager} {pid' : String}
    {b : Bool} (h : rolesOf m pid' = some b) :
    rolesOf (users.foldl (fun acc u => createOffer acc u.1 u.2) m) pid' = some b := by
  induction users generalizing m with
  | nil => exact h
  | cons u us ih => exact ih (rolesOf_createOffer h u.1 u.2)

theorem rolesOf_handleWelcome {m : Manager} {pid' : String} {b : Bool}
    (h : rolesOf m pid' = some b) (id : String) (users : List (String × Bool)) :
    rolesOf (handleWelcome m id users) pid' = some b := by
  unfold handleWelcome
  split
  · refine rolesOf_foldlCreateOffer users ?_
    rw [rolesOf, peersGet] at h ⊢
    exact h
  · exact h

theorem rolesOf_addTracksToAllPeers {m : Manager} {pid' : String} {b : Bool}
    (h : rolesOf m pid' = some b) (fail : Bool) :
    rolesOf (addTracksToAllPeers m fail) pid' = some b := by
  unfold addTracksToAllPeers
  generalize (m.peers.map (fun kv => kv.1)) = pids
  induction pids generalizing m with
  | nil => exact h
  | cons p ps ih =>
      simp only [List.foldl_cons]
      exact ih (rolesOf_renegotiate (rolesOf_attachLocalAudio h p) p fail)

theorem rolesOf_initLocalStream {m : Manager} {pid' : String} {b : Bool}
    (h : rolesOf m pid' = some b) (tid : String) (fail : Bool) :
    rolesOf (initLocalStream m tid fail) pid' = some b := by
  unfold initLocalStream
  refine rolesOf_addTracksToAllPeers ?_ fail
  rw [rolesOf, peersGet] at h ⊢
  exact h

theorem rolesOf_step {m : Manager} {pid' : String} {b : Bool}
    (h : rolesOf m pid' = some b) (e : Event) :
    rolesOf (step m e) pid' = some b ∨ rolesOf (step m e) pid' = none := by
  cases e with
  | welcome id users => exact Or.inl (rolesOf_handleWelcome h id users)
  | userJoin id fail => exact Or.inl (rolesOf_createOffer h id fail)
  | userLeave id =>
      rcases hp : peersGet m id with _ | p
      · left
        show rolesOf (removePeer m id) pid' = some b
        simp only [removePeer, hp]
        exact h
      · by_cases hne : pid' = id
        · subst hne
          right
          show rolesOf (removePeer m pid') pid' = none
          simp only [removePeer, hp]
          simp only [rolesOf, peersGet]
          rw [lookupKey_delKey_self]
          rfl
        · left
          show rolesOf (removePeer m id) pid' = some b
          simp only [removePeer, hp]
          simp only [rolesOf, peersGet]
          rw [lookupKey_delKey_ne _ _ _ hne]
          rw [rolesOf, peersGet] at h
          exact h
  | offerEv src sdp => exact Or.inl (rolesOf_handleOffer h src sdp)
  | answerEv src sdp => exact Or.inl (rolesOf_handleAnswer h src sdp)
  | iceEv src cand => exact Or.inl (rolesOf_handleIceCandidate h src cand)
  | micEv src status => exact Or.inl h
  | toggleEv v => exact Or.inl (rolesOf_toggleMic h v)
  | streamReady tid fail => exact Or.inl (rolesOf_initLocalStream h tid fail)
  | renegEv pid fail => exact Or.inl (rolesOf_renegotiate h pid fail)
  | offerOut pid fail => exact Or.inl (rolesOf_createOffer h pid fail)

theorem attachLocalAudio_get_self {m : Manager} {pid : String} {p : PeerConnection}
    (hp : peersGet m pid = some p) :
    ∃ p2, peersGet (attachLocalAudio m pid) pid = some p2 ∧
      p2.isPolite = p.isPolite ∧
      p2.makingOffer = p.makingOffer ∧
      p2.pendingCandidates = p.pendingCandidates ∧
      p2.connection.remoteDescription = p.connection.remoteDescription ∧
      p2.connection.localDescription = p.connection.localDescription ∧
      p2.connection.appliedCandidates = p.connection.appliedCandidates ∧
      p2.connection.signalingState = p.connection.signalingState ∧
      (match m.localTrack with
       | some t => p2.audioSender = some { track := some t.id }
       | none => p2.audioSender = p.audioSender) := by
  rcases ht : m.localTrack with _ | t
  · refine ⟨p, ?_, rfl, rfl, rfl, rfl, rfl, rfl, rfl, ?_⟩
    · rcases hs : peersGet m pid with _ | q
      · rw [hs] at hp
        cases hp
      · rw [hs] at hp
        cases hp
        simp only [attachLocalAudio, hs, ht]
    · simp only [ht]
  · rcases hs : p.audioSender with _ | snd
    · refine ⟨{ p with
          audioSender := some { track := some t.id }
          connection :=
            { p.connection with
              transceiverCount := p.connection.transceiverCount + 1 } }, ?_, rfl, rfl, rfl,
          rfl, rfl, rfl, rfl, ?_⟩
      · simp [attachLocalAudio, hp, ht, hs, peersGet_setPeer]
      · simp only [ht]
    · by_cases heq : snd.track = some t.id
      · refine ⟨p, ?_, rfl, rfl, rfl, rfl, rfl, rfl, rfl, ?_⟩
        · simp [attachLocalAudio, hp, ht, hs, if_pos heq]
        · simp only [ht, hs]
          obtain ⟨st⟩ := snd
          simp only at heq
          rw [heq]
      · refine ⟨{ p with audioSender := some { track := some t.id } }, ?_, rfl, rfl, rfl,
          rfl, rfl, rfl, rfl, ?_⟩
        · simp [attachLocalAudio, hp, ht, hs, if_neg heq, peersGet_setPeer]
        · simp only [ht]

theorem handleOffer_ignored {m : Manager} {pid : String} {p : PeerConnection} (sdp : Sdp)
    (hp : peersGet m pid = some p) (hpol : p.isPolite = false)
    (hcol : p.makingOffer = true ∨ p.connection.signalingState ≠ .stable) :
    handleOffer m pid sdp = m := by
  unfold handleOffer
  dsimp only
  rw [hp]
  dsimp only
  rw [hp]
  dsimp only
  have hig : (!p.isPolite && (p.makingOffer || decide (p.connection.signalingState ≠ .stable)))
      = true := by
    rcases hcol with h | h <;> simp [hpol, h]
  rw [if_pos hig]

theorem handleOffer_processed {m : Manager} {pid : String} {p : PeerConnection} (sdp : Sdp)
    (hp : peersGet m pid = some p)
    (hig : (!p.isPolite && (p.makingOffer || decide (p.connection.signalingState ≠ .stable)))
      = false) :
    ∃ p', peersGet (handleOffer m pid sdp) pid = some p' ∧
      p'.connection.remoteDescription = some sdp ∧
      p'.connection.localDescription = some localAnswerSdp ∧
      p'.connection.signalingState = .stable ∧
      p'.connection.appliedCandidates
        = p.connection.appliedCandidates ++ p.pendingCandidates ∧
      p'.pendingCandidates = [] ∧
      p'.isPolite = p.isPolite ∧
      (match m.localTrack with
       | some t => p'.audioSender = some { track := some t.id }
       | none => p'.audioSender = p.audioSender) ∧
      (handleOffer m pid sdp).outbox
        = m.outbox ++ (if m.wsOpen then [SignalMsg.answerMsg pid localAnswerSdp] else []) := by
  obtain ⟨p2, hq, e1, e2, e3, e4, e5, e6, e7, e8⟩ := attachLocalAudio_get_self hp
  have hres : handleOffer m pid sdp =
      sendToSignalingServer
        (setPeer (attachLocalAudio m pid) pid
          { p2 with
            connection :=
              ((drainPending (p2.connection.setRemoteDesc sdp) p2.pendingCandidates).setLocalDesc
                localAnswerSdp)
            pendingCandidates := [] })
        (.answerMsg pid localAnswerSdp) := by
    unfold handleOffer
    dsimp only
    rw [hp]
    dsimp only
    rw [hp]
    dsimp only
    simp only [hig, Bool.false_eq_true, if_false]
    rw [hq]
  refine ⟨{ p2 with
      connection :=
        ((drainPending (p2.connection.setRemoteDesc sdp) p2.pendingCandidates).setLocalDesc
          localAnswerSdp)
      pendingCandidates := [] }, ?_, ?_, ?_, ?_, ?_, rfl, e1, ?_, ?_⟩
  · rw [hres, peersGet, sendToSignalingServer_peers, ← peersGet, peersGet_setPeer, if_pos rfl]
  · simp
  · simp
  · simp [Connection.setLocalDesc, localAnswerSdp]
  · simp [e3, e6]
  · rcases ht : m.localTrack with _ | t
    · rw [ht] at e8
      exact e8
    · rw [ht] at e8
      exact e8
  · rw [hres]
    unfold sendToSignalingServer
    rcases hw : m.wsOpen with _ | _
    · simp only [setPeer_wsOpen, attachLocalAudio_wsOpen, hw]
      simp
    · simp only [setPeer_wsOpen, attachLocalAudio_wsOpen, hw]
      simp

theorem handleOffer_fresh_eq {m : Manager} {pid : String} (sdp : Sdp)
    (hp : peersGet m pid = none) :
    handleOffer m pid sdp =
      handleOffer (createPeerConnection m pid (decide (m.myId < pid))) pid sdp := by
  have hm1 : peersGet (createPeerConnection m pid (decide (m.myId < pid))) pid
      = some
        { id := pid, connection := newConnection, audioSender := some { track := none },
          isPolite := decide (m.myId < pid), makingOffer := false, pendingCandidates := [] } := by
    simp [createPeerConnection, hp, peersGet_setPeer]
  conv_lhs => rw [handleOffer]
  conv_rhs => rw [handleOffer]
  dsimp only
  rw [hp]
  dsimp only
  simp only [hm1]
  try rfl

theorem handleOffer_fresh {m : Manager} {pid : String} (sdp : Sdp)
    (hp : peersGet m pid = none) :
    ∃ p', peersGet (handleOffer m pid sdp) pid = some p' ∧
      p'.connection.remoteDescription = some sdp ∧
      p'.connection.localDescription = some localAnswerSdp ∧
      p'.connection.signalingState = .stable ∧
      p'.connection.appliedCandidates = [] ∧
      p'.pendingCandidates = [] ∧
      p'.isPolite = decide (m.myId < pid) ∧
      (match m.localTrack with
       | some t => p'.audioSender = some { track := some t.id }
       | none => p'.audioSender = some { track := none }) ∧
      (handleOffer m pid sdp).outbox
        = m.outbox ++ (if m.wsOpen then [SignalMsg.answerMsg pid localAnswerSdp] else []) := by
  have heq := handleOffer_fresh_eq sdp hp
  have hm1 : peersGet (createPeerConnection m pid (decide (m.myId < pid))) pid
      = some
        { id := pid, connection := newConnection, audioSender := some { track := none },
          isPolite := decide (m.myId < pid), makingOffer := false, pendingCandidates := [] } := by
    simp [createPeerConnection, hp, peersGet_setPeer]
  obtain ⟨p', h1, h2, h3, h4, h5, h6, h7, h8, h9⟩ :=
    handleOffer_processed sdp hm1 (by simp [newConnection])
  refine ⟨p', ?_, h2, h3, h4, ?_, h6, ?_, ?_, ?_⟩
  · rw [heq]
    exact h1
  · simpa [newConnection] using h5
  · simpa using h7
  · rw [createPeerConnection_localTrack] at h8
    rcases ht : m.localTrack with _ | t
    · rw [ht] at h8
      simpa using h8
    · rw [ht] at h8
      exact h8
  · rw [heq, h9, createPeerConnection_outbox, createPeerConnection_wsOpen]

theorem handleAnswer_unknown {m : Manager} {pid : String} (sdp : Sdp)
    (hp : peersGet m pid = none) : handleAnswer m pid sdp = m := by
  simp only [handleAnswer, hp]

theorem handleAnswer_stale {m : Manager} {pid : String} {p : PeerConnection} (sdp : Sdp)
    (hp : peersGet m pid = some p)
    (hph : p.connection.signalingState ≠ .haveLocalOffer) :
    handleAnswer m pid sdp = m := by
  simp only [handleAnswer, hp]
  rw [if_pos hph]

theorem handleAnswer_accepted {m : Manager} {pid : String} {p : PeerConnection} (sdp : Sdp)
    (hp : peersGet m pid = some p)
    (hph : p.connection.signalingState = .haveLocalOffer) :
    handleAnswer m pid sdp =
      setPeer m pid
        { p with
          connection := drainPending (p.connection.setRemoteDesc sdp) p.pendingCandidates
          pendingCandidates := [] } := by
  simp only [handleAnswer, hp]
  rw [if_neg (fun hcon => hcon hph)]

theorem handleIceCandidate_buffers {m : Manager} {pid : String} {p : PeerConnection}
    (c : Candidate) (hp : peersGet m pid = some p)
    (hrd : p.connection.remoteDescription = none) :
    handleIceCandidate m pid (some c) =
      setPeer m pid { p with pendingCandidates := p.pendingCandidates ++ [c] } := by
  simp only [handleIceCandidate, hp]
  rw [if_pos hrd]

theorem handleIceCandidate_immediate {m : Manager} {pid : String} {p : PeerConnection}
    (c : Candidate) {d : Sdp} (hp : peersGet m pid = some p)
    (hrd : p.connection.remoteDescription = some d) :
    handleIceCandidate m pid (some c) =
      setPeer m pid { p with connection := p.connection.addIce c } := by
  simp only [handleIceCandidate, hp]
  rw [if_neg (by simp [hrd])]

/-- Claim C1: for every pair of distinct identifiers exactly one side is
polite, namely the lexicographically smaller one; the role is computed by the
same rule on the `createOffer` and `handleOffer` paths; a duplicate creation
request reuses the existing session unchanged; and a session's role never
changes at any later event while the session exists. -/
theorem C1_role_assignment :
    (∀ (m : Manager) (pid : String) (fail : Bool), peersGet m pid = none →
       rolesOf (createOffer m pid fail) pid = some (decide (m.myId < pid))) ∧
    (∀ (m : Manager) (pid : String) (sdp : Sdp), peersGet m pid = none →
       rolesOf (handleOffer m pid sdp) pid = some (decide (m.myId < pid))) ∧
    (∀ (a b : String) (fa fb : Bool), a ≠ b →
       ∃ x : Bool,
         rolesOf (createOffer (mgrWith a) b fa) b = some x ∧
         rolesOf (createOffer (mgrWith b) a fb) a = some (!x)) ∧
    (∀ (m : Manager) (pid : String) (fail : Bool) (sdp : Sdp), peersGet m pid = none →
       rolesOf (createOffer m pid fail) pid = rolesOf (handleOffer m pid sdp) pid) ∧
    (∀ (m : Manager) (pid : String) (pol : Bool), (peersGet m pid).isSome = true →
       createPeerConnection m pid pol = m) ∧
    (∀ (m : Manager) (pid : String) (b : Bool) (e : Event), rolesOf m pid = some b →
       rolesOf (step m e) pid = some b ∨ rolesOf (step m e) pid = none) := by
  refine ⟨?_, ?_, ?_, ?_, ?_, ?_⟩
  · exact fun m pid fail h => rolesOf_createOffer_new h fail
  · exact fun m pid sdp h => rolesOf_handleOffer_new h sdp
  · intro a b fa fb hne
    refine ⟨decide (a < b),
      rolesOf_createOffer_new (show peersGet (mgrWith a) b = none from rfl) fa, ?_⟩
    have h1 : rolesOf (createOffer (mgrWith b) a fb) a = some (decide (b < a)) :=
      rolesOf_createOffer_new (show peersGet (mgrWith b) a = none from rfl) fb
    rw [h1]
    congr 1
    rcases lt_trichotomy a b with h | h | h
    · simp [h, lt_asymm h]
    · exact absurd h hne
    · simp [h, lt_asymm h]
  · intro m pid fail sdp h
    rw [rolesOf_createOffer_new h fail, rolesOf_handleOffer_new h sdp]
  · intro m pid pol h
    rcases hp : peersGet m pid with _ | p
    · rw [hp] at h
      simp at h
    · simp only [createPeerConnection, hp]
  · exact fun m pid b e h => rolesOf_step h e

/-- Closed instance of `C1_role_assignment` at concrete identifiers. -/
theorem C1_role_assignment_witness :
    rolesOf (createOffer (mgrWith "a") "b" false) "b"
        = some (decide ((mgrWith "a").myId < "b")) ∧
    rolesOf (handleOffer (mgrWith "a") "b" { sdpType := .offer, content := "o" }) "b"
        = some (decide ((mgrWith "a").myId < "b")) ∧
    (∃ x : Bool,
       rolesOf (createOffer (mgrWith "a") "b" false) "b" = some x ∧
       rolesOf (createOffer (mgrWith "b") "a" true) "a" = some (!x)) ∧
    rolesOf (createOffer (mgrWith "a") "b" true) "b"
        = rolesOf (handleOffer (mgrWith "a") "b" { sdpType := .offer, content := "o" }) "b" ∧
    createPeerConnection (createOffer (mgrWith "a") "b" false) "b" false
        = createOffer (mgrWith "a") "b" false ∧
    (rolesOf (step (createOffer (mgrWith "a") "b" false) (Event.userLeave "c")) "b" = some true ∨
     rolesOf (step (createOffer (mgrWith "a") "b" false) (Event.userLeave "c")) "b" = none) := by
  obtain ⟨h1, h2, h3, h4, h5, h6⟩ := C1_role_assignment
  exact ⟨h1 (mgrWith "a") "b" false (by with_unfolding_all rfl),
         h2 (mgrWith "a") "b" _ (by with_unfolding_all rfl),
         h3 "a" "b" false true (by decide),
         h4 (mgrWith "a") "b" true _ (by with_unfolding_all rfl),
         h5 (createOffer (mgrWith "a") "b" false) "b" false (by with_unfolding_all rfl),
         h6 (createOffer (mgrWith "a") "b" false) "b" true (Event.userLeave "c")
           (by with_unfolding_all rfl)⟩

/-- Claim C4: at every event boundary of every run (with transport failures
modelled by the `fail` flags) every session's `makingOffer` flag is false,
and a further `createOffer` or `renegotiate`, succeeding or failing, again
leaves every flag cleared: no execution path leaves `makingOffer` stuck. -/
theorem C4_makingOffer_cleared :
    ∀ (evs : List Event) (pid : String) (fail : Bool),
      ((run evs).peers.all (fun kv => !kv.2.makingOffer)) = true ∧
      ((createOffer (run evs) pid fail).peers.all (fun kv => !kv.2.makingOffer)) = true ∧
      ((renegotiate (run evs) pid fail).peers.all (fun kv => !kv.2.makingOffer)) = true := by
  intro evs pid fail
  refine ⟨?_, ?_, ?_⟩
  · rw [List.all_eq_true]
    intro kv hkv
    have h := (good_run evs kv hkv).1
    simp [h]
  · rw [List.all_eq_true]
    intro kv hkv
    have h := (good_createOffer (good_run evs) pid fail kv hkv).1
    simp [h]
  · rw [List.all_eq_true]
    intro kv hkv
    have h := (good_renegotiate (good_run evs) pid fail kv hkv).1
    simp [h]

/-- Claim C7: in every reachable state every session still holds the sender of
the single audio transceiver created with its transport, and the transceiver
count is still 1: track changes went through in-place `replaceTrack` and the
`addTrack` fallback of `attachLocalAudio` never ran. -/
theorem C7_single_transceiver :
    ∀ (evs : List Event),
      ((run evs).peers.all
        (fun kv => kv.2.audioSender.isSome && decide (kv.2.connection.transceiverCount = 1)))
        = true := by
  intro evs
  rw [List.all_eq_true]
  intro kv hkv
  obtain ⟨-, h2, h3, -⟩ := good_run evs kv hkv
  simp [h2, h3]

/-- Claim C2: a collision is `makingOffer ∨ phase ≠ stable`; an impolite side
discards a colliding offer with no state change and nothing sent; in every
other case (polite side, no collision, or fresh session) the offer is
processed: local audio attached, remote description set, buffered candidates
drained in arrival order, an answer created, set locally and sent. -/
theorem C2_offer_collision_handling :
    (∀ (m : Manager) (pid : String) (p : PeerConnection) (sdp : Sdp),
       peersGet m pid = some p → p.isPolite = false →
       (p.makingOffer = true ∨ p.connection.signalingState ≠ .stable) →
       handleOffer m pid sdp = m) ∧
    (∀ (m : Manager) (pid : String) (p : PeerConnection) (sdp : Sdp),
       peersGet m pid = some p →
       (p.isPolite = true ∨ (p.makingOffer = false ∧ p.connection.signalingState = .stable)) →
       ∃ p', peersGet (handleOffer m pid sdp) pid = some p' ∧
         p'.connection.remoteDescription = some sdp ∧
         p'.connection.localDescription = some localAnswerSdp ∧
         p'.connection.signalingState = .stable ∧
         p'.connection.appliedCandidates
           = p.connection.appliedCandidates ++ p.pendingCandidates ∧
         p'.pendingCandidates = [] ∧
         (match m.localTrack with
          | some t => p'.audioSender = some { track := some t.id }
          | none => p'.audioSender = p.audioSender) ∧
         (handleOffer m pid sdp).outbox
           = m.outbox ++ (if m.wsOpen then [SignalMsg.answerMsg pid localAnswerSdp] else [])) ∧
    (∀ (m : Manager) (pid : String) (sdp : Sdp),
       peersGet m pid = none →
       ∃ p', peersGet (handleOffer m pid sdp) pid = some p' ∧
         p'.connection.remoteDescription = some sdp ∧
         p'.connection.localDescription = some localAnswerSdp ∧
         p'.connection.signalingState = .stable ∧
         p'.pendingCandidates = [] ∧
         (handleOffer m pid sdp).outbox
           = m.outbox ++ (if m.wsOpen then [SignalMsg.answerMsg pid localAnswerSdp] else [])) := by
  refine ⟨?_, ?_, ?_⟩
  · exact fun m pid p sdp hp hpol hcol => handleOffer_ignored sdp hp hpol hcol
  · intro m pid p sdp hp hproc
    have hig : (!p.isPolite &&
        (p.makingOffer || decide (p.connection.signalingState ≠ .stable))) = false := by
      rcases hproc with h | ⟨h1, h2⟩
      · simp [h]
      · simp [h1, h2]
    obtain ⟨p', h1, h2, h3, h4, h5, h6, h7, h8, h9⟩ := handleOffer_processed sdp hp hig
    exact ⟨p', h1, h2, h3, h4, h5, h6, h8, h9⟩
  · intro m pid sdp hp
    obtain ⟨p', h1, h2, h3, h4, h5, h6, h7, h8, h9⟩ := handleOffer_fresh sdp hp
    exact ⟨p', h1, h2, h3, h4, h6, h9⟩

/-- Closed instance of `C2_offer_collision_handling`: an impolite side with an
offer in flight ignores an inbound offer; a polite established session and a
fresh session process it. -/
theorem C2_offer_collision_handling_witness :
    handleOffer (createOffer (mgrWith "b") "a" false) "a"
        { sdpType := .offer, content := "o" }
      = createOffer (mgrWith "b") "a" false ∧
    (∃ p', peersGet
        (handleOffer (handleOffer (mgrWith "a") "b" { sdpType := .offer, content := "o" }) "b"
          { sdpType := .offer, content := "o2" }) "b" = some p' ∧
       p'.connection.remoteDescription = some { sdpType := .offer, content := "o2" } ∧
       p'.connection.localDescription = some localAnswerSdp ∧
       p'.connection.signalingState = .stable ∧
       p'.connection.appliedCandidates = [] ++ [] ∧
       p'.pendingCandidates = [] ∧
       (match (handleOffer (mgrWith "a") "b"
           { sdpType := .offer, content := "o" }).localTrack with
        | some t => p'.audioSender = some { track := some t.id }
        | none => p'.audioSender = some { track := none }) ∧
       (handleOffer (handleOffer (mgrWith "a") "b" { sdpType := .offer, content := "o" }) "b"
           { sdpType := .offer, content := "o2" }).outbox
         = (handleOffer (mgrWith "a") "b" { sdpType := .offer, content := "o" }).outbox ++
             (if (handleOffer (mgrWith "a") "b"
                 { sdpType := .offer, content := "o" }).wsOpen then
               [SignalMsg.answerMsg "b" localAnswerSdp]
             else [])) ∧
    (∃ p', peersGet (handleOffer (mgrWith "a") "b" { sdpType := .offer, content := "o" }) "b"
        = some p' ∧
       p'.connection.remoteDescription = some { sdpType := .offer, content := "o" } ∧
       p'.connection.localDescription = some localAnswerSdp ∧
       p'.connection.signalingState = .stable ∧
       p'.pendingCandidates = [] ∧
       (handleOffer (mgrWith "a") "b" { sdpType := .offer, content := "o" }).outbox
         = (mgrWith "a").outbox ++
             (if (mgrWith "a").wsOpen then [SignalMsg.answerMsg "b" localAnswerSdp] else [])) := by
  obtain ⟨hA, hB, hC⟩ := C2_offer_collision_handling
  refine ⟨?_, ?_, ?_⟩
  · exact hA (createOffer (mgrWith "b") "a" false) "a"
      { id := "a"
        connection :=
          { signalingState := .haveLocalOffer, remoteDescription := none
            localDescription := some localOfferSdp, appliedCandidates := []
            transceiverCount := 1 }
        audioSender := some { track := none }, isPolite := false, makingOffer := false
        pendingCandidates := [] }
      { sdpType := .offer, content := "o" } (by with_unfolding_all rfl) rfl
      (Or.inr (by decide))
  · exact hB (handleOffer (mgrWith "a") "b" { sdpType := .offer, content := "o" }) "b"
      { id := "b"
        connection :=
          { signalingState := .stable
            remoteDescription := some { sdpType := .offer, content := "o" }
            localDescription := some localAnswerSdp, appliedCandidates := []
            transceiverCount := 1 }
        audioSender := some { track := none }, isPolite := true, makingOffer := false
        pendingCandidates := [] }
      { sdpType := .offer, content := "o2" } (by with_unfolding_all rfl) (Or.inl rfl)
  · exact hC (mgrWith "a") "b" { sdpType := .offer, content := "o" }
      (by with_unfolding_all rfl)

/-- Claim C3: a candidate arriving while a session has no remote description
is appended to that session's buffer with no other change; when `handleOffer`
or `handleAnswer` sets the remote description the buffered candidates are
applied to the transport in original arrival order and the buffer emptied; in
every reachable state a session with a remote description has an empty
buffer; and a candidate arriving once a remote description exists is applied
immediately. -/
theorem C3_candidate_buffering :
    (∀ (m : Manager) (pid : String) (p : PeerConnection) (c : Candidate),
       peersGet m pid = some p → p.connection.remoteDescription = none →
       handleIceCandidate m pid (some c) =
         setPeer m pid { p with pendingCandidates := p.pendingCandidates ++ [c] }) ∧
    (∀ (m : Manager) (pid : String) (p : PeerConnection) (c : Candidate) (d : Sdp),
       peersGet m pid = some p → p.connection.remoteDescription = some d →
       handleIceCandidate m pid (some c) =
         setPeer m pid { p with connection := p.connection.addIce c }) ∧
    (∀ (m : Manager) (pid : String) (p : PeerConnection) (sdp : Sdp),
       peersGet m pid = some p →
       (p.isPolite = true ∨ (p.makingOffer = false ∧ p.connection.signalingState = .stable)) →
       ∃ p', peersGet (handleOffer m pid sdp) pid = some p' ∧
         p'.connection.remoteDescription = some sdp ∧
         p'.connection.appliedCandidates
           = p.connection.appliedCandidates ++ p.pendingCandidates ∧
         p'.pendingCandidates = []) ∧
    (∀ (m : Manager) (pid : String) (p : PeerConnection) (sdp : Sdp),
       peersGet m pid = some p → p.connection.signalingState = .haveLocalOffer →
       ∃ p', peersGet (handleAnswer m pid sdp) pid = some p' ∧
         p'.connection.remoteDescription = some sdp ∧
         p'.connection.appliedCandidates
           = p.connection.appliedCandidates ++ p.pendingCandidates ∧
         p'.pendingCandidates = []) ∧
    (∀ (evs : List Event),
       ((run evs).peers.all (fun kv =>
         decide (kv.2.connection.remoteDescription = none) ||
         decide (kv.2.pendingCandidates = []))) = true) := by
  refine ⟨?_, ?_, ?_, ?_, ?_⟩
  · exact fun m pid p c hp hrd => handleIceCandidate_buffers c hp hrd
  · exact fun m pid p c d hp hrd => handleIceCandidate_immediate c hp hrd
  · intro m pid p sdp hp hproc
    have hig : (!p.isPolite &&
        (p.makingOffer || decide (p.connection.signalingState ≠ .stable))) = false := by
      rcases hproc with h | ⟨h1, h2⟩
      · simp [h]
      · simp [h1, h2]
    obtain ⟨p', h1, h2, h3, h4, h5, h6, h7, h8, h9⟩ := handleOffer_processed sdp hp hig
    exact ⟨p', h1, h2, h5, h6⟩
  · intro m pid p sdp hp hph
    rw [handleAnswer_accepted sdp hp hph]
    refine ⟨{ p with
        connection := drainPending (p.connection.setRemoteDesc sdp) p.pendingCandidates
        pendingCandidates := [] }, ?_, ?_, ?_, rfl⟩
    · rw [peersGet_setPeer, if_pos rfl]
    · simp
    · simp
  · intro evs
    rw [List.all_eq_true]
    intro kv hkv
    obtain ⟨-, -, -, h4⟩ := good_run evs kv hkv
    by_cases hrd : kv.2.connection.remoteDescription = none
    · simp [hrd]
    · simp [h4 hrd]

/-- Closed instance of `C3_candidate_buffering` at concrete sessions with and
without a remote description. -/
theorem C3_candidate_buffering_witness :
    handleIceCandidate (createOffer (mgrWith "a") "b" false) "b" (some "cand")
      = setPeer (createOffer (mgrWith "a") "b" false) "b"
          { id := "b"
            connection :=
              { signalingState := .haveLocalOffer, remoteDescription := none
                localDescription := some localOfferSdp, appliedCandidates := []
                transceiverCount := 1 }
            audioSender := some { track := none }, isPolite := true, makingOffer := false
            pendingCandidates := [] ++ ["cand"] } ∧
    handleIceCandidate (handleOffer (mgrWith "a") "b" { sdpType := .offer, content := "o" })
        "b" (some "cand2")
      = setPeer (handleOffer (mgrWith "a") "b" { sdpType := .offer, content := "o" }) "b"
          { id := "b"
            connection :=
              Connection.addIce
                { signalingState := .stable
                  remoteDescription := some { sdpType := .offer, content := "o" }
                  localDescription := some localAnswerSdp, appliedCandidates := []
                  transceiverCount := 1 } "cand2"
            audioSender := some { track := none }, isPolite := true, makingOffer := false
            pendingCandidates := [] } ∧
    (∃ p', peersGet
        (handleOffer (handleOffer (mgrWith "a") "b" { sdpType := .offer, content := "o" }) "b"
          { sdpType := .offer, content := "o2" }) "b" = some p' ∧
       p'.connection.remoteDescription = some { sdpType := .offer, content := "o2" } ∧
       p'.connection.appliedCandidates = [] ++ [] ∧
       p'.pendingCandidates = []) ∧
    (∃ p', peersGet (handleAnswer (createOffer (mgrWith "a") "b" false) "b"
          { sdpType := .answer, content := "an" }) "b" = some p' ∧
       p'.connection.remoteDescription = some { sdpType := .answer, content := "an" } ∧
       p'.connection.appliedCandidates = [] ++ [] ∧
       p'.pendingCandidates = []) ∧
    ((run [Event.offerEv "x" { sdpType := .offer, content := "o" }]).peers.all (fun kv =>
       decide (kv.2.connection.remoteDescription = none) ||
       decide (kv.2.pendingCandidates = []))) = true := by
  obtain ⟨h1, h2, h3, h4, h5⟩ := C3_candidate_buffering
  refine ⟨?_, ?_, ?_, ?_, ?_⟩
  · exact h1 (createOffer (mgrWith "a") "b" false) "b"
      { id := "b"
        connection :=
          { signalingState := .haveLocalOffer, remoteDescription := none
            localDescription := some localOfferSdp, appliedCandidates := []
            transceiverCount := 1 }
        audioSender := some { track := none }, isPolite := true, makingOffer := false
        pendingCandidates := [] } "cand" (by with_unfolding_all rfl) rfl
  · exact h2 (handleOffer (mgrWith "a") "b" { sdpType := .offer, content := "o" }) "b"
      { id := "b"
        connection :=
          { signalingState := .stable
            remoteDescription := some { sdpType := .offer, content := "o" }
            localDescription := some localAnswerSdp, appliedCandidates := []
            transceiverCount := 1 }
        audioSender := some { track := none }, isPolite := true, makingOffer := false
        pendingCandidates := [] } "cand2" { sdpType := .offer, content := "o" }
      (by with_unfolding_all rfl) rfl
  · exact h3 (handleOffer (mgrWith "a") "b" { sdpType := .offer, content := "o" }) "b"
      { id := "b"
        connection :=
          { signalingState := .stable
            remoteDescription := some { sdpType := .offer, content := "o" }
            localDescription := some localAnswerSdp, appliedCandidates := []
            transceiverCount := 1 }
        audioSender := some { track := none }, isPolite := true, makingOffer := false
        pendingCandidates := [] }
      { sdpType := .offer, content := "o2" } (by with_unfolding_all rfl) (Or.inl rfl)
  · exact h4 (createOffer (mgrWith "a") "b" false) "b"
      { id := "b"
        connection :=
          { signalingState := .haveLocalOffer, remoteDescription := none
            localDescription := some localOfferSdp, appliedCandidates := []
            transceiverCount := 1 }
        audioSender := some { track := none }, isPolite := true, makingOffer := false
        pendingCandidates := [] } { sdpType := .answer, content := "an" }
      (by with_unfolding_all rfl) rfl
  · exact h5 [Event.offerEv "x" { sdpType := .offer, content := "o" }]

/-- Claim C5: an inbound answer is applied (remote description set, buffer
drained) only in `have-local-offer`; in any other phase, and for an unknown
sender, it is discarded with no state change; `handleAnswer` never sends. -/
theorem C5_answer_gating :
    (∀ (m : Manager) (pid : String) (p : PeerConnection) (sdp : Sdp),
       peersGet m pid = some p → p.connection.signalingState ≠ .haveLocalOffer →
       handleAnswer m pid sdp = m) ∧
    (∀ (m : Manager) (pid : String) (p : PeerConnection) (sdp : Sdp),
       peersGet m pid = some p → p.connection.signalingState = .haveLocalOffer →
       handleAnswer m pid sdp =
         setPeer m pid
           { p with
             connection := drainPending (p.connection.setRemoteDesc sdp) p.pendingCandidates
             pendingCandidates := [] }) ∧
    (∀ (m : Manager) (pid : String) (sdp : Sdp), (handleAnswer m pid sdp).outbox = m.outbox) := by
  refine ⟨?_, ?_, ?_⟩
  · exact fun m pid p sdp hp hph => handleAnswer_stale sdp hp hph
  · exact fun m pid p sdp hp hph => handleAnswer_accepted sdp hp hph
  · intro m pid sdp
    rcases hp : peersGet m pid with _ | p <;> simp only [handleAnswer, hp]
    split
    · rfl
    · simp

/-- Closed instance of `C5_answer_gating`: an answer in `stable` phase is a
no-op, an answer in `have-local-offer` is applied, nothing is ever sent. -/
theorem C5_answer_gating_witness :
    handleAnswer (handleOffer (mgrWith "a") "b" { sdpType := .offer, content := "o" }) "b"
        { sdpType := .answer, content := "an" }
      = handleOffer (mgrWith "a") "b" { sdpType := .offer, content := "o" } ∧
    handleAnswer (createOffer (mgrWith "a") "b" false) "b"
        { sdpType := .answer, content := "an" }
      = setPeer (createOffer (mgrWith "a") "b" false) "b"
          { id := "b"
            connection :=
              drainPending
                (Connection.setRemoteDesc
                  { signalingState := .haveLocalOffer, remoteDescription := none
                    localDescription := some localOfferSdp, appliedCandidates := []
                    transceiverCount := 1 } { sdpType := .answer, content := "an" }) []
            audioSender := some { track := none }, isPolite := true, makingOffer := false
            pendingCandidates := [] } ∧
    (handleAnswer (mgrWith "a") "b" { sdpType := .answer, content := "an" }).outbox
      = (mgrWith "a").outbox := by
  obtain ⟨h1, h2, h3⟩ := C5_answer_gating
  refine ⟨?_, ?_, ?_⟩
  · exact h1 (handleOffer (mgrWith "a") "b" { sdpType := .offer, content := "o" }) "b"
      { id := "b"
        connection :=
          { signalingState := .stable
            remoteDescription := some { sdpType := .offer, content := "o" }
            localDescription := some localAnswerSdp, appliedCandidates := []
            transceiverCount := 1 }
        audioSender := some { track := none }, isPolite := true, makingOffer := false
        pendingCandidates := [] } { sdpType := .answer, content := "an" }
      (by with_unfolding_all rfl) (by decide)
  · exact h2 (createOffer (mgrWith "a") "b" false) "b"
      { id := "b"
        connection :=
          { signalingState := .haveLocalOffer, remoteDescription := none
            localDescription := some localOfferSdp, appliedCandidates := []
            transceiverCount := 1 }
        audioSender := some { track := none }, isPolite := true, makingOffer := false
        pendingCandidates := [] } { sdpType := .answer, content := "an" }
      (by with_unfolding_all rfl) rfl
  · exact h3 (mgrWith "a") "b" { sdpType := .answer, content := "an" }

/-- Claim C6 as frozen is false on the code: the `welcome` handler assigns
`this.myId = data.id` unconditionally, so a second welcome frame with a
different id changes the value returned by `getMyId()`. -/
theorem C6_counterexample :
    getMyId (run [Event.welcome "a" [], Event.welcome "b" []]) = "b" ∧
    getMyId (run [Event.welcome "a" []]) = "a" ∧
    ("b" : String) ≠ "a" := by
  refine ⟨by with_unfolding_all rfl, by with_unfolding_all rfl, by decide⟩

/-- Claim C6 (amended): no non-welcome frame ever changes `getMyId()`, and a
welcome frame with a nonempty id sets it to that id — the code reassigns on
every welcome instead of only the first. -/
theorem C6_amended_identifier_stability :
    (∀ (m : Manager) (e : Event), e.isWelcomeEv = false →
       getMyId (step m e) = getMyId m) ∧
    (∀ (m : Manager) (id : String) (users : List (String × Bool)), id ≠ "" →
       getMyId (step m (Event.welcome id users)) = id) := by
  constructor
  · intro m e he
    cases e with
    | welcome id users => simp [Event.isWelcomeEv] at he
    | userJoin id fail => simp [step, getMyId]
    | userLeave id => simp [step, getMyId]
    | offerEv src sdp => simp [step, getMyId]
    | answerEv src sdp => simp [step, getMyId]
    | iceEv src cand => simp [step, getMyId]
    | micEv src status => rfl
    | toggleEv b => simp [step, getMyId]
    | streamReady tid fail => simp [step, getMyId]
    | renegEv pid fail => simp [step, getMyId]
    | offerOut pid fail => simp [step, getMyId]
  · intro m id users hid
    show getMyId (handleWelcome m id users) = id
    unfold handleWelcome
    rw [if_pos hid]
    rw [getMyId, foldl_createOffer_myId]

/-- Closed instance of `C6_amended_identifier_stability`. -/
theorem C6_amended_identifier_stability_witness :
    getMyId (step (mgrWith "a") (Event.userLeave "x")) = getMyId (mgrWith "a") ∧
    getMyId (step (mgrWith "a") (Event.welcome "b" [])) = "b" := by
  obtain ⟨h1, h2⟩ := C6_amended_identifier_stability
  exact ⟨h1 (mgrWith "a") (Event.userLeave "x") rfl, h2 (mgrWith "a") "b" [] (by decide)⟩

/-- Claim C8: with the socket open, `toggleMic` leaves the session table (and
so every session's role, flags, phase, buffer and transport) untouched,
appends exactly one `mic-status` frame (never an offer or answer), records
the requested state, and only flips the local track's `enabled` flag. -/
theorem C8_toggleMic_isolated (m : Manager) (b : Bool) (h : m.wsOpen = true) :
    (toggleMic m b).peers = m.peers ∧
    (toggleMic m b).outbox = m.outbox ++ [SignalMsg.micStatusMsg b] ∧
    (toggleMic m b).isMicEnabled = b ∧
    (toggleMic m b).localTrack = m.localTrack.map (fun t => { t with enabled := b }) ∧
    (toggleMic m b).myId = m.myId ∧
    (toggleMic m b).wsOpen = m.wsOpen := by
  unfold toggleMic sendMicStatus sendToSignalingServer
  rcases ht : m.localTrack with _ | t <;> simp [ht, h]

/-- Closed instance of `C8_toggleMic_isolated`. -/
theorem C8_toggleMic_isolated_witness :
    (mgrWith "a").wsOpen = true ∧
    ((toggleMic (mgrWith "a") true).peers = (mgrWith "a").peers ∧
     (toggleMic (mgrWith "a") true).outbox
       = (mgrWith "a").outbox ++ [SignalMsg.micStatusMsg true] ∧
     (toggleMic (mgrWith "a") true).isMicEnabled = true ∧
     (toggleMic (mgrWith "a") true).localTrack
       = (mgrWith "a").localTrack.map (fun t => { t with enabled := true }) ∧
     (toggleMic (mgrWith "a") true).myId = (mgrWith "a").myId ∧
     (toggleMic (mgrWith "a") true).wsOpen = (mgrWith "a").wsOpen) :=
  ⟨rfl, C8_toggleMic_isolated (mgrWith "a") true rfl⟩

/-- Claim C9: an answer from an unknown remote is a silent no-op (no session
is created, nothing changes), whereas an offer from an unknown remote creates
a session. -/
theorem C9_answer_unknown_noop (m : Manager) (pid : String) (sdp : Sdp)
    (h : peersGet m pid = none) :
    handleAnswer m pid sdp = m ∧
    (peersGet (handleOffer m pid sdp) pid).isSome = true := by
  refine ⟨handleAnswer_unknown sdp h, ?_⟩
  obtain ⟨p', h1, -, -, -, -, -, -, -⟩ := handleOffer_fresh sdp h
  rw [h1]
  rfl

/-- Closed instance of `C9_answer_unknown_noop`. -/
theorem C9_answer_unknown_noop_witness :
    handleAnswer (mgrWith "a") "b" { sdpType := .answer, content := "an" } = mgrWith "a" ∧
    (peersGet (handleOffer (mgrWith "a") "b" { sdpType := .answer, content := "an" })
      "b").isSome = true :=
  C9_answer_unknown_noop (mgrWith "a") "b" { sdpType := .answer, content := "an" } rfl

/-- Claim C10: with the socket open, `toggleMic enabled` makes `isMicOn`
return `enabled`, sends one `mic-status` frame carrying it, and touches no
track when no local stream exists. -/
theorem C10_toggleMic_records (m : Manager) (b : Bool) (h : m.wsOpen = true) :
    isMicOn (toggleMic m b) = b ∧
    (toggleMic m b).outbox = m.outbox ++ [SignalMsg.micStatusMsg b] ∧
    (m.localTrack = none → (toggleMic m b).localTrack = none) := by
  unfold isMicOn toggleMic sendMicStatus sendToSignalingServer
  rcases ht : m.localTrack with _ | t <;> simp [ht, h]

/-- Closed instance of `C10_toggleMic_records` with no local stream. -/
theorem C10_toggleMic_records_witness :
    mgrInit.wsOpen = true ∧
    (isMicOn (toggleMic mgrInit true) = true ∧
     (toggleMic mgrInit true).outbox = mgrInit.outbox ++ [SignalMsg.micStatusMsg true] ∧
     (mgrInit.localTrack = none → (toggleMic mgrInit true).localTrack = none)) :=
  ⟨rfl, C10_toggleMic_records mgrInit true rfl⟩

end WebRTC
